import Mathlib

/-!
Shallow embedding of the reservation lifecycle and reconciliation logic of a
car-rental backend (routes/reservationRoutes.ts and cronJobs.ts), together
with theorems settling the specification claims about it.

The entity store is modelled as three lists of records (cars, reservations,
statistics).  Mongo `findById` / `findOne` become `List.find?`, `find` with a
predicate becomes `List.filter`, `save` of a modified document becomes an
update-by-id map over the list, and `deleteOne` removes the first matching
record and reports the deleted count.  Dates are Nat milliseconds since the
epoch; the calendar date extracted by `toISOString().split('T')[0]` is the UTC
day index.  HTTP error responses are modelled by `ApiError`: status 404
becomes `notFound`, status 400 becomes `invalidState`, each carrying the
message string from the source.
-/

namespace RentACar

/-- Car status enum from models/Car.ts. -/
inductive CarStatus where
  | available | reserved | maintenance | rented
deriving DecidableEq, Repr

/-- Reservation status enum from models/Reservation.ts. -/
inductive ResStatus where
  | pending | confirmed | cancelled | completed
deriving DecidableEq, Repr

/-- Payment status enum from models/Statistics.ts. -/
inductive PayStatus where
  | pending | confirmed | cancelled
deriving DecidableEq, Repr

/-- Car record (models/Car.ts).  Purely descriptive attributes (make, model,
year, fuel type, transmission, mileage, size, image) are never read or
written by any lifecycle operation or by the reconciliation job, so they are
represented by the single field `dailyRate`; `id` is the Mongo `_id`. -/
structure Car where
  id : Nat
  status : CarStatus
  dailyRate : Int
deriving DecidableEq, Repr

/-- Reservation record (models/Reservation.ts). -/
structure Reservation where
  id : Nat
  carId : Nat
  userId : Nat
  startDate : Nat
  endDate : Nat
  status : ResStatus
  totalCost : Int
deriving DecidableEq, Repr

/-- Statistics record (models/Statistics.ts). -/
structure Statistics where
  id : Nat
  date : Nat
  revenue : Int
  paymentStatus : PayStatus
  reservationId : Nat
deriving DecidableEq, Repr

/-- The document database state: the three collections the core touches. -/
structure Store where
  cars : List Car
  reservations : List Reservation
  stats : List Statistics
deriving DecidableEq, Repr

/-- Error responses of the HTTP routes: `notFound` is a 404 response,
`invalidState` a 400 response, each with the message string of the source. -/
inductive ApiError where
  | notFound (msg : String)
  | invalidState (msg : String)
deriving DecidableEq, Repr

/-- Whether an error is a 404 NotFound response. -/
def ApiError.isNotFound : ApiError → Bool
  | .notFound _ => true
  | .invalidState _ => false

/-- Mongo Car.findById. -/
def findCar (i : Nat) (s : Store) : Option Car :=
  s.cars.find? (fun c => decide (c.id = i))

/-- Mongo Reservation.findById. -/
def findReservation (i : Nat) (s : Store) : Option Reservation :=
  s.reservations.find? (fun r => decide (r.id = i))

/-- Mongo Statistics.findOne with a reservationId filter. -/
def findStats (rid : Nat) (s : Store) : Option Statistics :=
  s.stats.find? (fun st => decide (st.reservationId = rid))

/-- Saving a reservation document whose status field was assigned:
update-by-id over the collection. -/
def setReservationStatus (i : Nat) (v : ResStatus) (l : List Reservation) :
    List Reservation :=
  l.map (fun r => if r.id = i then { r with status := v } else r)

/-- Saving a car document whose status field was assigned. -/
def setCarStatus (i : Nat) (v : CarStatus) (l : List Car) : List Car :=
  l.map (fun c => if c.id = i then { c with status := v } else c)

/-- Saving a statistics document whose paymentStatus field was assigned. -/
def setStatsPayment (i : Nat) (v : PayStatus) (l : List Statistics) :
    List Statistics :=
  l.map (fun st => if st.id = i then { st with paymentStatus := v } else st)

/-- Mongo deleteOne: removes the first record matching the predicate and
returns the deletedCount (0 or 1) together with the remaining list. -/
def deleteOneBy {α : Type} (p : α → Bool) : List α → Nat × List α
  | [] => (0, [])
  | x :: xs =>
    if p x then (1, xs)
    else
      let r := deleteOneBy p xs
      (r.1, x :: r.2)

/-- A fresh Mongo `_id` for a new document: one more than any id in use. -/
def freshId (used : List Nat) : Nat :=
  used.foldr max 0 + 1

/-- Milliseconds per day. -/
def msPerDay : Nat := 86400000

/-- The calendar date of a timestamp, as a UTC day index: the model of
`new Date(startDate).toISOString().split('T')[0]`. -/
def calendarDate (t : Nat) : Nat := t / msPerDay

/-- POST /api/reservations (reservationRoutes.ts lines 46-79): looks up the
car (404 if absent), inserts a new pending reservation, then inserts a
statistics record with the calendar date of the start date, the total cost as
revenue, pending payment status and the new reservation id. -/
def create (userId carId startDate endDate : Nat) (totalCost : Int)
    (s : Store) : Except ApiError Reservation × Store :=
  match findCar carId s with
  | none => (.error (.notFound "Car not found!"), s)
  | some _ =>
    let rid := freshId (s.reservations.map (fun r => r.id))
    let newReservation : Reservation :=
      { id := rid, carId := carId, userId := userId, startDate := startDate,
        endDate := endDate, status := .pending, totalCost := totalCost }
    let s1 : Store := { s with reservations := s.reservations ++ [newReservation] }
    let sid := freshId (s1.stats.map (fun st => st.id))
    let newStats : Statistics :=
      { id := sid, date := calendarDate startDate, revenue := totalCost,
        paymentStatus := .pending, reservationId := rid }
    let s2 : Store := { s1 with stats := s1.stats ++ [newStats] }
    (.ok newReservation, s2)

/-- PATCH /api/reservations/:id/approve (reservationRoutes.ts lines 101-134):
404 if the reservation is missing, 400 if it is not pending, 404 if its car
is missing, 400 if the car is not available; otherwise saves the reservation
as confirmed, saves the linked statistics record (if one is found) as
confirmed, and saves the car as reserved. -/
def approve (i : Nat) (s : Store) : Except ApiError Unit × Store :=
  match findReservation i s with
  | none => (.error (.notFound "Reservation not found"), s)
  | some reservation =>
    if reservation.status ≠ .pending then
      (.error (.invalidState "Only pending reservations can be approved"), s)
    else
      match findCar reservation.carId s with
      | none => (.error (.notFound "Car not found!"), s)
      | some car =>
        if car.status ≠ .available then
          (.error (.invalidState "Car is not available!"), s)
        else
          let s1 : Store :=
            { s with reservations :=
                setReservationStatus reservation.id .confirmed s.reservations }
          let s2 : Store :=
            match findStats reservation.id s1 with
            | some statistics =>
              { s1 with stats := setStatsPayment statistics.id .confirmed s1.stats }
            | none => s1
          let s3 : Store := { s2 with cars := setCarStatus car.id .reserved s2.cars }
          (.ok (), s3)

/-- PATCH /api/reservations/:id/reject (reservationRoutes.ts lines 156-183):
404 if the reservation is missing, 400 if it is not pending; otherwise saves
the reservation as cancelled, deletes it, then deletes its statistics record,
answering 404 when the statistics deleteOne removed nothing. -/
def reject (i : Nat) (s : Store) : Except ApiError Unit × Store :=
  match findReservation i s with
  | none => (.error (.notFound "Reservation not found"), s)
  | some reservation =>
    if reservation.status ≠ .pending then
      (.error (.invalidState "Only pending reservations can be rejected"), s)
    else
      let s1 : Store :=
        { s with reservations :=
            setReservationStatus reservation.id .cancelled s.reservations }
      let s2 : Store :=
        { s1 with reservations :=
            (deleteOneBy (fun r => decide (r.id = reservation.id)) s1.reservations).2 }
      let deleteResult :=
        deleteOneBy (fun st => decide (st.reservationId = reservation.id)) s2.stats
      let s3 : Store := { s2 with stats := deleteResult.2 }
      if deleteResult.1 = 0 then
        (.error (.notFound "No statistics found for this reservation"), s3)
      else
        (.ok (), s3)

/-- The overlap predicate of the cron job: a reservation on the given car
whose interval covers now, irrespective of its status. -/
def overlapsNow (now cid : Nat) (r : Reservation) : Bool :=
  decide (r.carId = cid) && decide (r.startDate ≤ now) && decide (now ≤ r.endDate)

/-- The selection query of the cron job: reservations with endDate strictly
before now and status confirmed. -/
def selectExpired (now : Nat) (s : Store) : List Reservation :=
  s.reservations.filter (fun r => decide (r.endDate < now) && decide (r.status = .confirmed))

/-- The body of the cron loop for one selected reservation (cronJobs.ts
lines 17-35): load the car; if found and no reservation on it overlaps now,
save the car as available; in every case save the reservation as completed. -/
def processOne (now : Nat) (s : Store) (r : Reservation) : Store :=
  let s1 : Store :=
    match findCar r.carId s with
    | some car =>
      let overlapping := s.reservations.filter (overlapsNow now car.id)
      if overlapping.length = 0 then
        { s with cars := setCarStatus car.id .available s.cars }
      else s
    | none => s
  { s1 with reservations := setReservationStatus r.id .completed s1.reservations }

/-- One reconciliation pass of the cron job (cronJobs.ts lines 7-40): select
the expired confirmed reservations once, then process each in order. -/
def runPass (now : Nat) (s : Store) : Store :=
  (selectExpired now s).foldl (processOne now) s

/-- The cron loop under an injected fault: processing the selected list in
order until the first reservation on which the store throws (modelled as the
Car.findById at the start of its iteration failing).  Because the try/catch
of cronJobs.ts wraps the whole loop, the exception ends the loop: writes
already made persist, the remaining selected reservations are not processed,
and the error is caught and logged by the outer handler (the returned flag
records that the catch ran). -/
def runPassFaultyAux (now : Nat) (failOn : Nat → Bool) :
    Store → List Reservation → Store × Bool
  | s, [] => (s, false)
  | s, r :: rs =>
    if failOn r.id then (s, true)
    else runPassFaultyAux now failOn (processOne now s r) rs

/-- One reconciliation pass in which the store throws on the reservations
selected by failOn: the result store and whether an error was caught. -/
def runPassFaulty (now : Nat) (failOn : Nat → Bool) (s : Store) : Store × Bool :=
  runPassFaultyAux now failOn s (selectExpired now s)

/-- Whether the reject route answered with a 404 NotFound error. -/
def rejectIsNotFound (i : Nat) (s : Store) : Bool :=
  match (reject i s).1 with
  | .error e => e.isNotFound
  | .ok _ => false

/-- A concrete available car used by the witness stores. -/
def wCar1 : Car := { id := 1, status := .available, dailyRate := 50 }

/-- A concrete pending reservation on car 1. -/
def wRes1 : Reservation :=
  { id := 10, carId := 1, userId := 2, startDate := 86400000,
    endDate := 432000000, status := .pending, totalCost := 200 }

/-- The statistics record linked to reservation 10. -/
def wStat1 : Statistics :=
  { id := 100, date := 1, revenue := 200, paymentStatus := .pending,
    reservationId := 10 }

/-- A store with one available car, one pending reservation on it and its
linked statistics record. -/
def wStore1 : Store :=
  { cars := [wCar1], reservations := [wRes1], stats := [wStat1] }

/-- A concrete confirmed reservation on car 1. -/
def wRes2 : Reservation :=
  { id := 11, carId := 1, userId := 2, startDate := 86400000,
    endDate := 432000000, status := .confirmed, totalCost := 200 }

/-- A store whose only reservation is already confirmed. -/
def wStore2 : Store :=
  { cars := [wCar1], reservations := [wRes2], stats := [] }

/-- A store with a pending reservation but no statistics record at all. -/
def wStore3 : Store :=
  { cars := [wCar1], reservations := [wRes1], stats := [] }

/-- An expired confirmed reservation whose car does not exist. -/
def wRes4 : Reservation :=
  { id := 20, carId := 9, userId := 2, startDate := 0, endDate := 10,
    status := .confirmed, totalCost := 100 }

/-- The record wRes4 becomes after a reconciliation pass. -/
def wRes4c : Reservation := { wRes4 with status := .completed }

/-- A store with one expired confirmed reservation and no cars. -/
def wStore4 : Store := { cars := [], reservations := [wRes4], stats := [] }

/-- The first of two expired confirmed reservations on a missing car. -/
def wRes5 : Reservation :=
  { id := 30, carId := 9, userId := 2, startDate := 0, endDate := 10,
    status := .confirmed, totalCost := 100 }

/-- The second of two expired confirmed reservations on a missing car. -/
def wRes6 : Reservation :=
  { id := 31, carId := 9, userId := 2, startDate := 0, endDate := 10,
    status := .confirmed, totalCost := 100 }

/-- A store holding both wRes5 and wRes6. -/
def wStore5 : Store := { cars := [], reservations := [wRes5, wRes6], stats := [] }

/-- A fault model: the store throws while processing reservation 30. -/
def wFail : Nat → Bool := fun i => decide (i = 30)

/-- A reserved car whose only reservation has expired. -/
def wCar2 : Car := { id := 2, status := .reserved, dailyRate := 60 }

/-- The record wCar2 becomes once the reconciliation pass frees it. -/
def wCar2a : Car := { id := 2, status := .available, dailyRate := 60 }

/-- The single expired confirmed reservation on car 2. -/
def wRes7 : Reservation :=
  { id := 40, carId := 2, userId := 3, startDate := 0, endDate := 10,
    status := .confirmed, totalCost := 50 }

/-- A store with the reserved car 2 and its expired reservation. -/
def wStore6 : Store := { cars := [wCar2], reservations := [wRes7], stats := [] }

/-! Helper lemmas about the update-by-id operations. -/

theorem setReservationStatus_status_of_id {i : Nat} {v : ResStatus}
    {l : List Reservation} {x : Reservation} (hx : x ∈ setReservationStatus i v l)
    (hid : x.id = i) : x.status = v := by
  simp only [setReservationStatus, List.mem_map] at hx
  obtain ⟨x0, _, hfx⟩ := hx
  by_cases h : x0.id = i
  · rw [if_pos h] at hfx
    rw [← hfx]
  · rw [if_neg h] at hfx
    rw [← hfx] at hid
    exact absurd hid h

theorem setCarStatus_status_of_id {i : Nat} {v : CarStatus}
    {l : List Car} {x : Car} (hx : x ∈ setCarStatus i v l)
    (hid : x.id = i) : x.status = v := by
  simp only [setCarStatus, List.mem_map] at hx
  obtain ⟨x0, _, hfx⟩ := hx
  by_cases h : x0.id = i
  · rw [if_pos h] at hfx
    rw [← hfx]
  · rw [if_neg h] at hfx
    rw [← hfx] at hid
    exact absurd hid h

theorem setStatsPayment_payment_of_id {i : Nat} {v : PayStatus}
    {l : List Statistics} {x : Statistics} (hx : x ∈ setStatsPayment i v l)
    (hid : x.id = i) : x.paymentStatus = v := by
  simp only [setStatsPayment, List.mem_map] at hx
  obtain ⟨x0, _, hfx⟩ := hx
  by_cases h : x0.id = i
  · rw [if_pos h] at hfx
    rw [← hfx]
  · rw [if_neg h] at hfx
    rw [← hfx] at hid
    exact absurd hid h

theorem countP_map_of_pres {α : Type} (f : α → α) (p : α → Bool) (l : List α)
    (h : ∀ x, p (f x) = p x) : (l.map f).countP p = l.countP p := by
  induction l with
  | nil => rfl
  | cons a l ih => simp [List.countP_cons, h, ih]

theorem mem_setReservationStatus_of_ne {i : Nat} {v : ResStatus}
    {l : List Reservation} {x : Reservation} (hx : x ∈ l) (h : x.id ≠ i) :
    x ∈ setReservationStatus i v l := by
  simp only [setReservationStatus, List.mem_map]
  exact ⟨x, hx, by rw [if_neg h]⟩

theorem deleteOneBy_fst_eq {α : Type} (p : α → Bool) (l : List α) :
    (deleteOneBy p l).1 = min (l.countP p) 1 := by
  induction l with
  | nil => rfl
  | cons a l ih =>
    by_cases h : p a
    · simp [deleteOneBy, h, List.countP_cons]
    · simp only [deleteOneBy, h, List.countP_cons, if_false, Bool.false_eq_true,
        reduceIte, ih]
      omega

theorem deleteOneBy_snd_countP {α : Type} (p : α → Bool) (l : List α) :
    (deleteOneBy p l).2.countP p = l.countP p - (deleteOneBy p l).1 := by
  induction l with
  | nil => rfl
  | cons a l ih =>
    by_cases h : p a
    · simp [deleteOneBy, h, List.countP_cons]
    · simp only [deleteOneBy, h, List.countP_cons, Bool.false_eq_true, reduceIte,
        ih, deleteOneBy_fst_eq]
      omega

theorem mem_deleteOneBy_of_not {α : Type} (p : α → Bool) {l : List α} {x : α}
    (hx : x ∈ l) (hpx : p x = false) : x ∈ (deleteOneBy p l).2 := by
  induction l with
  | nil => cases hx
  | cons a l ih =>
    rcases List.mem_cons.mp hx with h | h
    · subst h
      rw [deleteOneBy, if_neg (by simp [hpx])]
      exact List.mem_cons_self x _
    · by_cases hpa : p a
      · rw [deleteOneBy, if_pos hpa]
        exact h
      · rw [deleteOneBy, if_neg (by simp [hpa])]
        exact List.mem_cons_of_mem a (ih h)

theorem countP_id_eq_one {l : List Reservation} {r : Reservation} {i : Nat}
    (hnd : (l.map (fun x => x.id)).Nodup) (hr : r ∈ l) (hri : r.id = i) :
    l.countP (fun x => decide (x.id = i)) = 1 := by
  induction l with
  | nil => cases hr
  | cons a l ih =>
    rw [List.map_cons, List.nodup_cons] at hnd
    rw [List.countP_cons]
    rcases List.mem_cons.mp hr with h | h
    · have hz : l.countP (fun x => decide (x.id = i)) = 0 := by
        rw [List.countP_eq_zero]
        intro x hx
        simp only [decide_eq_true_eq]
        intro hxi
        apply hnd.1
        rw [← h, hri, ← hxi]
        exact List.mem_map_of_mem (fun y => y.id) hx
      have hai : a.id = i := by rw [← h, hri]
      simp [hz, hai]
    · have hai : a.id ≠ i := by
        intro hai
        apply hnd.1
        rw [hai, ← hri]
        exact List.mem_map_of_mem (fun y => y.id) h
      rw [ih hnd.2 h]
      simp [hai]

/-! Characterizations of the approve route on its main paths. -/

theorem approve_ok_eq {i : Nat} {s : Store} {r : Reservation} {c : Car}
    (hr : findReservation i s = some r) (hp : r.status = .pending)
    (hc : findCar r.carId s = some c) (ha : c.status = .available) :
    approve i s = (.ok (),
      { cars := setCarStatus c.id .reserved s.cars,
        reservations := setReservationStatus r.id .confirmed s.reservations,
        stats := match findStats r.id s with
          | some st => setStatsPayment st.id .confirmed s.stats
          | none => s.stats }) := by
  simp only [approve, hr, hp, hc, ha, ne_eq, not_true_eq_false, reduceIte]
  have hfs : findStats r.id
      { cars := s.cars,
        reservations := setReservationStatus r.id ResStatus.confirmed s.reservations,
        stats := s.stats } = findStats r.id s := rfl
  rw [hfs]
  cases findStats r.id s <;> rfl

/-- Claim C1: approving a pending reservation whose car is available succeeds,
sets the reservation status to confirmed, sets the car status to reserved, and
sets the linked statistics record (when one exists) to paymentStatus
confirmed, while leaving the statistics collection untouched when no linked
statistics record exists. -/
theorem approve_pending_available (i : Nat) (s : Store) (r : Reservation)
    (c : Car) (hr : findReservation i s = some r) (hp : r.status = .pending)
    (hc : findCar r.carId s = some c) (ha : c.status = .available) :
    (approve i s).1 = .ok () ∧
    (∀ x ∈ (approve i s).2.reservations, x.id = r.id → x.status = .confirmed) ∧
    (∀ y ∈ (approve i s).2.cars, y.id = c.id → y.status = .reserved) ∧
    (∀ st, findStats r.id s = some st →
      ∀ z ∈ (approve i s).2.stats, z.id = st.id → z.paymentStatus = .confirmed) ∧
    (findStats r.id s = none → (approve i s).2.stats = s.stats) := by
  rw [approve_ok_eq hr hp hc ha]
  refine ⟨rfl, ?_, ?_, ?_, ?_⟩
  · intro x hx hid
    exact setReservationStatus_status_of_id hx hid
  · intro y hy hid
    exact setCarStatus_status_of_id hy hid
  · intro st hst z hz hid
    rw [hst] at hz
    exact setStatsPayment_payment_of_id hz hid
  · intro hst
    rw [hst]

/-- Claim C2: when the reservation and its car both exist but their statuses
are not the pending/available combination, approve fails with an InvalidState
(HTTP 400) error and the store is completely unchanged. -/
theorem approve_invalid_state (i : Nat) (s : Store) (r : Reservation) (c : Car)
    (hr : findReservation i s = some r) (hc : findCar r.carId s = some c)
    (hne : ¬(r.status = .pending ∧ c.status = .available)) :
    (∃ m, (approve i s).1 = .error (.invalidState m)) ∧ (approve i s).2 = s := by
  by_cases hp : r.status = .pending
  · have hca : ¬c.status = .available := fun hca => hne ⟨hp, hca⟩
    simp only [approve, hr, hp, hc, ne_eq, not_true_eq_false, reduceIte,
      if_pos hca]
    simp
  · simp only [approve, hr, ne_eq, if_pos hp]
    simp

/-- Claim C3: creating a reservation for an existing car appends exactly one
pending reservation and exactly one statistics record, the statistics record
carrying the calendar date of the start date, the total cost as revenue,
pending payment status and the new reservation id, and no car record is
modified. -/
theorem create_spec (userId carId startDate endDate : Nat) (totalCost : Int)
    (s : Store) (c : Car) (hc : findCar carId s = some c) :
    ∃ r st,
      (create userId carId startDate endDate totalCost s).1 = .ok r ∧
      (create userId carId startDate endDate totalCost s).2.reservations =
        s.reservations ++ [r] ∧
      (create userId carId startDate endDate totalCost s).2.stats =
        s.stats ++ [st] ∧
      (create userId carId startDate endDate totalCost s).2.cars = s.cars ∧
      r.status = .pending ∧ r.carId = carId ∧ r.userId = userId ∧
      r.startDate = startDate ∧ r.endDate = endDate ∧ r.totalCost = totalCost ∧
      st.date = calendarDate startDate ∧ st.revenue = totalCost ∧
      st.paymentStatus = .pending ∧ st.reservationId = r.id := by
  unfold create
  rw [hc]
  exact ⟨_, _, rfl, rfl, rfl, rfl, rfl, rfl, rfl, rfl, rfl, rfl, rfl, rfl, rfl, rfl⟩

/-- Witness for claim C1: approving the pending reservation of wStore1
succeeds. -/
theorem approve_pending_available_witness :
    (approve 10 wStore1).1 = .ok () :=
  (approve_pending_available 10 wStore1 wRes1 wCar1 (by decide) (by decide)
    (by decide) (by decide)).1

/-- Witness for claim C2: approving the confirmed reservation of wStore2
leaves the store unchanged. -/
theorem approve_invalid_state_witness :
    (approve 11 wStore2).2 = wStore2 :=
  (approve_invalid_state 11 wStore2 wRes2 wCar1 (by decide) (by decide)
    (by decide)).2

/-- Witness for claim C3: creating a reservation on the existing car of
wStore2 leaves the car collection unchanged. -/
theorem create_spec_witness :
    (create 2 1 86400000 432000000 200 wStore2).2.cars = wStore2.cars := by
  obtain ⟨r, st, h⟩ :=
    create_spec 2 1 86400000 432000000 200 wStore2 wCar1 (by decide)
  exact h.2.2.2.1

/-! The reject route. -/

theorem reject_pending_eq {i : Nat} {s : Store} {r : Reservation}
    (hr : findReservation i s = some r) (hp : r.status = .pending) :
    reject i s =
      ((if (deleteOneBy (fun st => decide (st.reservationId = r.id)) s.stats).1 = 0 then
          .error (.notFound "No statistics found for this reservation")
        else .ok ()),
       { cars := s.cars,
         reservations := (deleteOneBy (fun x => decide (x.id = r.id))
           (setReservationStatus r.id .cancelled s.reservations)).2,
         stats := (deleteOneBy (fun st => decide (st.reservationId = r.id)) s.stats).2 }) := by
  by_cases hd :
      (deleteOneBy (fun st => decide (st.reservationId = r.id)) s.stats).1 = 0 <;>
    simp [reject, hr, hp, hd]

/-- Claim C8: rejecting a pending reservation with a unique linked statistics
record succeeds, removes the reservation and its statistics record while
keeping every unrelated reservation and statistics record, changes no car,
and a second reject of the same id fails with NotFound without modifying the
store. -/
theorem reject_pending_spec (i : Nat) (s : Store) (r : Reservation)
    (hr : findReservation i s = some r) (hp : r.status = .pending)
    (hnd : (s.reservations.map (fun x => x.id)).Nodup)
    (hst : s.stats.countP (fun st => decide (st.reservationId = r.id)) = 1) :
    (reject i s).1 = .ok () ∧
    (∀ x ∈ (reject i s).2.reservations, x.id ≠ i) ∧
    (∀ st ∈ (reject i s).2.stats, st.reservationId ≠ r.id) ∧
    (∀ x ∈ s.reservations, x.id ≠ i → x ∈ (reject i s).2.reservations) ∧
    (∀ st ∈ s.stats, st.reservationId ≠ r.id → st ∈ (reject i s).2.stats) ∧
    (reject i s).2.cars = s.cars ∧
    reject i (reject i s).2 =
      (.error (.notFound "Reservation not found"), (reject i s).2) := by
  have h1 : s.reservations.find? (fun x => decide (x.id = i)) = some r := hr
  have hri : r.id = i := by
    have := List.find?_some h1
    simpa using this
  have hm : r ∈ s.reservations := List.mem_of_find?_eq_some h1
  have hfstS : (deleteOneBy (fun st => decide (st.reservationId = r.id)) s.stats).1 = 1 := by
    rw [deleteOneBy_fst_eq, hst]
    omega
  have hcntR :
      (setReservationStatus r.id .cancelled s.reservations).countP
        (fun x => decide (x.id = r.id)) = 1 := by
    rw [setReservationStatus, countP_map_of_pres]
    · exact countP_id_eq_one hnd hm rfl
    · intro x
      by_cases hx : x.id = r.id <;> simp [hx]
  have hresZ :
      (deleteOneBy (fun x => decide (x.id = r.id))
        (setReservationStatus r.id .cancelled s.reservations)).2.countP
          (fun x => decide (x.id = r.id)) = 0 := by
    rw [deleteOneBy_snd_countP, deleteOneBy_fst_eq, hcntR]
    omega
  have hstZ :
      (deleteOneBy (fun st => decide (st.reservationId = r.id)) s.stats).2.countP
        (fun st => decide (st.reservationId = r.id)) = 0 := by
    rw [deleteOneBy_snd_countP, hfstS, hst]
  rw [reject_pending_eq hr hp]
  simp only [hfstS]
  have hnores : ∀ x ∈ (deleteOneBy (fun x => decide (x.id = r.id))
      (setReservationStatus r.id .cancelled s.reservations)).2, x.id ≠ i := by
    intro x hx
    have := (List.countP_eq_zero.mp hresZ) x hx
    simpa [hri] using this
  refine ⟨by simp, ?_, ?_, ?_, ?_, by trivial, ?_⟩
  · exact hnores
  · intro st hstm
    have := (List.countP_eq_zero.mp hstZ) st hstm
    simpa using this
  · intro x hx hxi
    have hxr : x.id ≠ r.id := by rw [hri]; exact hxi
    exact mem_deleteOneBy_of_not _ (mem_setReservationStatus_of_ne hx hxr)
      (by simpa using hxr)
  · intro st hstm hne
    exact mem_deleteOneBy_of_not _ hstm (by simpa using hne)
  · have hnone :
        (deleteOneBy (fun x => decide (x.id = r.id))
          (setReservationStatus r.id .cancelled s.reservations)).2.find?
            (fun x => decide (x.id = i)) = none := by
      rw [List.find?_eq_none]
      intro x hx
      simpa using hnores x hx
    simp [reject, findReservation, hnone]

/-- Claim C9 (amended): the reject route fails with a 404 NotFound in exactly
two cases, a missing reservation or a pending reservation with no linked
statistics record (the latter surfaced to the caller); a reservation that
exists but is not pending fails with a 400 InvalidState instead, and a
pending reservation with a linked statistics record succeeds. -/
theorem reject_error_cases (i : Nat) (s : Store) :
    (findReservation i s = none →
      (reject i s).1 = .error (.notFound "Reservation not found")) ∧
    (∀ r, findReservation i s = some r → r.status ≠ .pending →
      (reject i s).1 =
        .error (.invalidState "Only pending reservations can be rejected")) ∧
    (∀ r, findReservation i s = some r → r.status = .pending →
      (∀ st ∈ s.stats, st.reservationId ≠ r.id) →
      (reject i s).1 =
        .error (.notFound "No statistics found for this reservation")) ∧
    (∀ r, findReservation i s = some r → r.status = .pending →
      (∃ st ∈ s.stats, st.reservationId = r.id) →
      (reject i s).1 = .ok ()) := by
  refine ⟨?_, ?_, ?_, ?_⟩
  · intro h
    simp [reject, h]
  · intro r hr hnp
    simp [reject, hr, hnp]
  · intro r hr hp hno
    have hz : s.stats.countP (fun st => decide (st.reservationId = r.id)) = 0 := by
      rw [List.countP_eq_zero]
      intro st hstm
      simpa using hno st hstm
    rw [reject_pending_eq hr hp]
    rw [deleteOneBy_fst_eq, hz]
    simp
  · intro r hr hp hex
    have hpos : 0 < s.stats.countP (fun st => decide (st.reservationId = r.id)) := by
      rw [List.countP_pos_iff]
      obtain ⟨st, hstm, hste⟩ := hex
      exact ⟨st, hstm, by simpa using hste⟩
    rw [reject_pending_eq hr hp]
    rw [deleteOneBy_fst_eq]
    have : min (s.stats.countP (fun st => decide (st.reservationId = r.id))) 1 = 1 := by
      omega
    rw [this]
    simp

/-- Counterexample to claim C9 as stated: reservation 11 of wStore2 exists
with status confirmed, and rejecting it answers with the 400 InvalidState
error of the source, not with a 404 NotFound. -/
theorem reject_not_pending_counterexample :
    (reject 11 wStore2).1 =
      .error (.invalidState "Only pending reservations can be rejected") ∧
    rejectIsNotFound 11 wStore2 = false :=
  ⟨rfl, rfl⟩

/-- Witness for the amended claim C9 at a concrete store: the confirmed
reservation case answers InvalidState. -/
theorem reject_error_cases_witness :
    (reject 11 wStore2).1 =
      .error (.invalidState "Only pending reservations can be rejected") :=
  (reject_error_cases 11 wStore2).2.1 wRes2 (by decide) (by decide)

/-- Witness for claim C8: rejecting the pending reservation of wStore1
succeeds. -/
theorem reject_pending_spec_witness :
    (reject 10 wStore1).1 = .ok () :=
  (reject_pending_spec 10 wStore1 wRes1 (by decide) (by decide) (by decide)
    (by decide)).1

/-- Claim C10: rejecting a pending reservation that has no linked statistics
record answers the NotFound error, yet the reservation has already been
deleted: the resulting store contains no reservation with that id and is not
equal to the original store. -/
theorem reject_missing_stats_not_atomic (i : Nat) (s : Store) (r : Reservation)
    (hr : findReservation i s = some r) (hp : r.status = .pending)
    (hnd : (s.reservations.map (fun x => x.id)).Nodup)
    (hst : ∀ st ∈ s.stats, st.reservationId ≠ r.id) :
    (reject i s).1 = .error (.notFound "No statistics found for this reservation") ∧
    (∀ x ∈ (reject i s).2.reservations, x.id ≠ i) ∧
    (reject i s).2 ≠ s := by
  have h1 : s.reservations.find? (fun x => decide (x.id = i)) = some r := hr
  have hri : r.id = i := by
    have := List.find?_some h1
    simpa using this
  have hm : r ∈ s.reservations := List.mem_of_find?_eq_some h1
  have hz : s.stats.countP (fun st => decide (st.reservationId = r.id)) = 0 := by
    rw [List.countP_eq_zero]
    intro st hstm
    simpa using hst st hstm
  have hcntR :
      (setReservationStatus r.id .cancelled s.reservations).countP
        (fun x => decide (x.id = r.id)) = 1 := by
    rw [setReservationStatus, countP_map_of_pres]
    · exact countP_id_eq_one hnd hm rfl
    · intro x
      by_cases hx : x.id = r.id <;> simp [hx]
  have hresZ :
      (deleteOneBy (fun x => decide (x.id = r.id))
        (setReservationStatus r.id .cancelled s.reservations)).2.countP
          (fun x => decide (x.id = r.id)) = 0 := by
    rw [deleteOneBy_snd_countP, deleteOneBy_fst_eq, hcntR]
    omega
  have hnores : ∀ x ∈ (deleteOneBy (fun x => decide (x.id = r.id))
      (setReservationStatus r.id .cancelled s.reservations)).2, x.id ≠ i := by
    intro x hx
    have := (List.countP_eq_zero.mp hresZ) x hx
    simpa [hri] using this
  rw [reject_pending_eq hr hp]
  rw [deleteOneBy_fst_eq, hz]
  refine ⟨by simp, ?_, ?_⟩
  · simpa using hnores
  · intro heq
    have hres : (deleteOneBy (fun x => decide (x.id = r.id))
        (setReservationStatus r.id .cancelled s.reservations)).2 = s.reservations :=
      congrArg Store.reservations heq
    have : r.id ≠ i := hnores r (by rw [hres]; exact hm)
    exact this hri

/-- Witness for claim C10: rejecting the pending reservation of wStore3,
which has no statistics record, answers the NotFound error. -/
theorem reject_missing_stats_not_atomic_witness :
    (reject 10 wStore3).1 =
      .error (.notFound "No statistics found for this reservation") :=
  (reject_missing_stats_not_atomic 10 wStore3 wRes1 (by decide) (by decide)
    (by decide) (by decide)).1

/-! The reconciliation pass. -/

theorem processOne_reservations (now : Nat) (s : Store) (r : Reservation) :
    (processOne now s r).reservations =
      setReservationStatus r.id .completed s.reservations := by
  unfold processOne
  cases findCar r.carId s with
  | none => rfl
  | some car =>
    by_cases h : (s.reservations.filter (overlapsNow now car.id)).length = 0 <;>
      simp [h]

theorem processOne_cars_cases (now : Nat) (s : Store) (r : Reservation) :
    (processOne now s r).cars = s.cars ∨
    ∃ car, findCar r.carId s = some car ∧
      (s.reservations.filter (overlapsNow now car.id)).length = 0 ∧
      (processOne now s r).cars = setCarStatus car.id .available s.cars := by
  unfold processOne
  cases hc : findCar r.carId s with
  | none => exact Or.inl rfl
  | some car =>
    by_cases h : (s.reservations.filter (overlapsNow now car.id)).length = 0
    · exact Or.inr ⟨car, rfl, h, by simp [h]⟩
    · exact Or.inl (by simp [h])

theorem processOne_done (now : Nat) (s : Store) (r : Reservation) :
    ∀ x ∈ (processOne now s r).reservations, x.id = r.id →
      x.status = .completed := by
  rw [processOne_reservations]
  intro x hx hxi
  exact setReservationStatus_status_of_id hx hxi

theorem processOne_preserves_done {i : Nat} (now : Nat) {s : Store}
    (r : Reservation)
    (h : ∀ x ∈ s.reservations, x.id = i → x.status = .completed) :
    ∀ x ∈ (processOne now s r).reservations, x.id = i →
      x.status = .completed := by
  rw [processOne_reservations]
  intro x hx hxi
  simp only [setReservationStatus, List.mem_map] at hx
  obtain ⟨x0, hx0, hfx⟩ := hx
  by_cases hid : x0.id = r.id
  · rw [if_pos hid] at hfx
    rw [← hfx]
  · rw [if_neg hid] at hfx
    rw [← hfx]
    rw [← hfx] at hxi
    exact h x0 hx0 hxi

theorem foldl_preserves_done {i : Nat} (now : Nat) (l : List Reservation)
    (s : Store)
    (h : ∀ x ∈ s.reservations, x.id = i → x.status = .completed) :
    ∀ x ∈ (l.foldl (processOne now) s).reservations, x.id = i →
      x.status = .completed := by
  induction l generalizing s with
  | nil => exact h
  | cons a l ih => exact ih (processOne now s a) (processOne_preserves_done now a h)

theorem foldl_mem_done (now : Nat) (l : List Reservation) (s : Store)
    (r : Reservation) (hrl : r ∈ l) :
    ∀ x ∈ (l.foldl (processOne now) s).reservations, x.id = r.id →
      x.status = .completed := by
  induction l generalizing s with
  | nil => cases hrl
  | cons a l ih =>
    rcases List.mem_cons.mp hrl with h | h
    · subst h
      exact foldl_preserves_done now l (processOne now s r) (processOne_done now s r)
    · exact ih (processOne now s a) h

/-- Claim C4: after one reconciliation pass at time now, every reservation
that was confirmed with endDate strictly before now has status completed in
the resulting store, with no condition on its car existing. -/
theorem runPass_completes (now : Nat) (s : Store) (r : Reservation)
    (hr : r ∈ s.reservations) (hst : r.status = .confirmed)
    (hend : r.endDate < now) :
    ∀ x ∈ (runPass now s).reservations, x.id = r.id → x.status = .completed := by
  have hsel : r ∈ selectExpired now s := by
    rw [selectExpired, List.mem_filter]
    exact ⟨hr, by simp [hend, hst]⟩
  exact foldl_mem_done now (selectExpired now s) s r hsel

/-- Witness for claim C4 at a concrete store whose car is missing: the
reservation record ends the pass completed. -/
theorem runPass_completes_witness : wRes4c.status = ResStatus.completed :=
  runPass_completes 100 wStore4 wRes4 (by decide) (by decide) (by decide)
    wRes4c (by decide) (by decide)

theorem overlapsNow_set (now cid i : Nat) (v : ResStatus) (x : Reservation) :
    overlapsNow now cid (if x.id = i then { x with status := v } else x) =
      overlapsNow now cid x := by
  by_cases h : x.id = i
  · rw [if_pos h]
    rfl
  · rw [if_neg h]

theorem processOne_overlap_len (now cid : Nat) (s : Store) (r : Reservation) :
    ((processOne now s r).reservations.filter (overlapsNow now cid)).length =
      (s.reservations.filter (overlapsNow now cid)).length := by
  rw [processOne_reservations, setReservationStatus,
    ← List.countP_eq_length_filter, ← List.countP_eq_length_filter]
  exact countP_map_of_pres _ _ _ (fun x => overlapsNow_set now cid r.id .completed x)

theorem processOne_car_exists (now : Nat) (s : Store) (r : Reservation)
    {cid : Nat} (h : ∃ y ∈ s.cars, y.id = cid) :
    ∃ y ∈ (processOne now s r).cars, y.id = cid := by
  rcases processOne_cars_cases now s r with hc | ⟨car, _, _, hc⟩
  · rw [hc]
    exact h
  · rw [hc]
    obtain ⟨y, hy, hyid⟩ := h
    simp only [setCarStatus, List.mem_map]
    refine ⟨if y.id = car.id then { y with status := .available } else y,
      ⟨y, hy, rfl⟩, ?_⟩
    by_cases hcase : y.id = car.id
    · rw [if_pos hcase]
      exact hyid
    · rw [if_neg hcase]
      exact hyid

theorem processOne_preserves_avail (now : Nat) {cid : Nat} {s : Store}
    (r : Reservation)
    (h : ∀ y ∈ s.cars, y.id = cid → y.status = .available) :
    ∀ y ∈ (processOne now s r).cars, y.id = cid → y.status = .available := by
  rcases processOne_cars_cases now s r with hc | ⟨car, _, _, hc⟩
  · rw [hc]
    exact h
  · rw [hc]
    intro y hy hyid
    simp only [setCarStatus, List.mem_map] at hy
    obtain ⟨y0, hy0, hfy⟩ := hy
    by_cases hcase : y0.id = car.id
    · rw [if_pos hcase] at hfy
      rw [← hfy]
    · rw [if_neg hcase] at hfy
      rw [← hfy]
      rw [← hfy] at hyid
      exact h y0 hy0 hyid

theorem processOne_sets_avail (now : Nat) (s : Store) (r : Reservation)
    (hex : ∃ y ∈ s.cars, y.id = r.carId)
    (hov : (s.reservations.filter (overlapsNow now r.carId)).length = 0) :
    ∀ y ∈ (processOne now s r).cars, y.id = r.carId → y.status = .available := by
  have hsome : (s.cars.find? (fun c => decide (c.id = r.carId))).isSome := by
    rw [List.find?_isSome]
    obtain ⟨y, hy, hyid⟩ := hex
    exact ⟨y, hy, by simpa using hyid⟩
  obtain ⟨car, hcar⟩ := Option.isSome_iff_exists.mp hsome
  have hcar' : findCar r.carId s = some car := hcar
  have hcarid : car.id = r.carId := by
    simpa using List.find?_some hcar
  have hcars : (processOne now s r).cars =
      setCarStatus r.carId .available s.cars := by
    simp only [processOne, hcar', hcarid, hov, reduceIte]
  rw [hcars]
  intro y hy hyid
  exact setCarStatus_status_of_id hy hyid

theorem foldl_preserves_avail (now : Nat) (l : List Reservation) {cid : Nat}
    (s : Store)
    (h : ∀ y ∈ s.cars, y.id = cid → y.status = .available) :
    ∀ y ∈ (l.foldl (processOne now) s).cars, y.id = cid →
      y.status = .available := by
  induction l generalizing s with
  | nil => exact h
  | cons a l ih => exact ih (processOne now s a) (processOne_preserves_avail now a h)

theorem foldl_sets_avail (now : Nat) (l : List Reservation) (s : Store)
    (r : Reservation) (hrl : r ∈ l)
    (hex : ∃ y ∈ s.cars, y.id = r.carId)
    (hov : (s.reservations.filter (overlapsNow now r.carId)).length = 0) :
    ∀ y ∈ (l.foldl (processOne now) s).cars, y.id = r.carId →
      y.status = .available := by
  induction l generalizing s with
  | nil => cases hrl
  | cons a l ih =>
    rcases List.mem_cons.mp hrl with h | h
    · subst h
      exact foldl_preserves_avail now l _ (processOne_sets_avail now s r hex hov)
    · exact ih (processOne now s a) h (processOne_car_exists now s a hex)
        (by rw [processOne_overlap_len]; exact hov)

theorem filter_map_of_pres {α : Type} (f : α → α) (p : α → Bool) (l : List α)
    (hp : ∀ x, p (f x) = p x) (hf : ∀ x, p x = true → f x = x) :
    (l.map f).filter p = l.filter p := by
  induction l with
  | nil => rfl
  | cons a l ih =>
    rw [List.map_cons, List.filter_cons, List.filter_cons, hp a]
    by_cases ha : p a = true
    · rw [if_pos ha, if_pos ha, hf a ha, ih]
    · rw [if_neg ha, if_neg ha, ih]

theorem setCarStatus_filter_id_ne (j : Nat) (v : CarStatus) (l : List Car)
    (cid : Nat) (h : j ≠ cid) :
    (setCarStatus j v l).filter (fun y => decide (y.id = cid)) =
      l.filter (fun y => decide (y.id = cid)) := by
  rw [setCarStatus]
  apply filter_map_of_pres
  · intro x
    by_cases hx : x.id = j
    · rw [if_pos hx]
    · rw [if_neg hx]
  · intro x hpx
    have hxc : x.id = cid := by simpa using hpx
    rw [if_neg (fun he => h (by rw [← he, hxc]))]

theorem processOne_cars_filter_eq (now cid : Nat) (s : Store) (r : Reservation)
    (hpos : (s.reservations.filter (overlapsNow now cid)).length ≠ 0) :
    (processOne now s r).cars.filter (fun y => decide (y.id = cid)) =
      s.cars.filter (fun y => decide (y.id = cid)) := by
  rcases processOne_cars_cases now s r with hc | ⟨car, hcar, hov, hc⟩
  · rw [hc]
  · rw [hc]
    have hne : car.id ≠ cid := by
      intro he
      rw [he] at hov
      exact hpos hov
    exact setCarStatus_filter_id_ne car.id .available s.cars cid hne

theorem foldl_cars_filter_eq (now cid : Nat) (l : List Reservation) (s : Store)
    (hpos : (s.reservations.filter (overlapsNow now cid)).length ≠ 0) :
    (l.foldl (processOne now) s).cars.filter (fun y => decide (y.id = cid)) =
      s.cars.filter (fun y => decide (y.id = cid)) := by
  induction l generalizing s with
  | nil => rfl
  | cons a l ih =>
    rw [List.foldl_cons]
    rw [ih (processOne now s a) (by rw [processOne_overlap_len]; exact hpos)]
    exact processOne_cars_filter_eq now cid s a hpos

/-- Claim C5: for an expired confirmed reservation whose car exists, one
reconciliation pass sets that car's status to available when no reservation
on the car covers now, and leaves the car records with that id untouched
when at least one reservation on the car covers now. -/
theorem runPass_car_update (now : Nat) (s : Store) (r : Reservation) (c : Car)
    (hr : r ∈ s.reservations) (hst : r.status = .confirmed)
    (hend : r.endDate < now) (hc : c ∈ s.cars) (hcid : c.id = r.carId) :
    ((∀ x ∈ s.reservations, overlapsNow now r.carId x = false) →
      ∀ y ∈ (runPass now s).cars, y.id = r.carId → y.status = .available) ∧
    ((∃ x ∈ s.reservations, overlapsNow now r.carId x = true) →
      (runPass now s).cars.filter (fun y => decide (y.id = r.carId)) =
        s.cars.filter (fun y => decide (y.id = r.carId))) := by
  have hsel : r ∈ selectExpired now s := by
    rw [selectExpired, List.mem_filter]
    exact ⟨hr, by simp [hend, hst]⟩
  constructor
  · intro hno
    have hov : (s.reservations.filter (overlapsNow now r.carId)).length = 0 := by
      rw [List.length_eq_zero, List.filter_eq_nil_iff]
      intro x hx
      simp [hno x hx]
    exact foldl_sets_avail now (selectExpired now s) s r hsel ⟨c, hc, hcid⟩ hov
  · intro hex
    have hpos : (s.reservations.filter (overlapsNow now r.carId)).length ≠ 0 := by
      obtain ⟨x, hx, hox⟩ := hex
      have hmem : x ∈ s.reservations.filter (overlapsNow now r.carId) :=
        List.mem_filter.mpr ⟨hx, hox⟩
      intro h0
      rw [List.length_eq_zero] at h0
      rw [h0] at hmem
      cases hmem
    exact foldl_cars_filter_eq now r.carId (selectExpired now s) s hpos

/-- Witness for claim C5: the expired reservation 40 of wStore6 frees car 2,
whose record after the pass is available. -/
theorem runPass_car_update_witness : wCar2a.status = CarStatus.available :=
  (runPass_car_update 100 wStore6 wRes7 wCar2 (by decide) (by decide)
    (by decide) (by decide) (by decide)).1 (by decide) wCar2a (by decide)
    (by decide)

theorem processOne_descend (now : Nat) (s : Store) (r : Reservation) :
    ∀ x ∈ (processOne now s r).reservations, ∃ x0 ∈ s.reservations,
      x0.id = x.id ∧ x0.endDate = x.endDate ∧
      (x.status = x0.status ∨ x.status = .completed) := by
  rw [processOne_reservations]
  intro x hx
  simp only [setReservationStatus, List.mem_map] at hx
  obtain ⟨x0, hx0, hfx⟩ := hx
  by_cases h : x0.id = r.id
  · rw [if_pos h] at hfx
    exact ⟨x0, hx0, by rw [← hfx], by rw [← hfx], Or.inr (by rw [← hfx])⟩
  · rw [if_neg h] at hfx
    exact ⟨x0, hx0, by rw [← hfx], by rw [← hfx], Or.inl (by rw [← hfx])⟩

theorem foldl_descend (now : Nat) (l : List Reservation) (s : Store) :
    ∀ x ∈ (l.foldl (processOne now) s).reservations, ∃ x0 ∈ s.reservations,
      x0.id = x.id ∧ x0.endDate = x.endDate ∧
      (x.status = x0.status ∨ x.status = .completed) := by
  induction l generalizing s with
  | nil => exact fun x hx => ⟨x, hx, rfl, rfl, Or.inl rfl⟩
  | cons a l ih =>
    intro x hx
    rw [List.foldl_cons] at hx
    obtain ⟨x1, hx1, hid1, hend1, hst1⟩ := ih (processOne now s a) x hx
    obtain ⟨x0, hx0, hid0, hend0, hst0⟩ := processOne_descend now s a x1 hx1
    refine ⟨x0, hx0, hid0.trans hid1, hend0.trans hend1, ?_⟩
    rcases hst1 with h1 | h1
    · rcases hst0 with h0 | h0
      · exact Or.inl (h1.trans h0)
      · exact Or.inr (h1.trans h0)
    · exact Or.inr h1

/-- Claim C6: the reconciliation pass is idempotent: immediately re-running
it at the same time selects no reservations at all and returns the store of
the first pass unchanged. -/
theorem runPass_idempotent (now : Nat) (s : Store) :
    selectExpired now (runPass now s) = [] ∧
    runPass now (runPass now s) = runPass now s := by
  have hsel : selectExpired now (runPass now s) = [] := by
    rw [selectExpired, List.filter_eq_nil_iff]
    intro x hx
    simp only [Bool.and_eq_true, decide_eq_true_eq, not_and]
    intro hend hst
    obtain ⟨x0, hx0, hid0, hend0, hst0⟩ :=
      foldl_descend now (selectExpired now s) s x hx
    have hxdone : x.status = .completed := by
      rcases hst0 with h | h
      · have hx0sel : x0 ∈ selectExpired now s := by
          rw [selectExpired, List.mem_filter]
          refine ⟨hx0, ?_⟩
          have hx0end : x0.endDate < now := by
            rw [hend0]
            exact hend
          have hx0st : x0.status = .confirmed := by
            rw [← h]
            exact hst
          simp [hx0end, hx0st]
        exact foldl_mem_done now (selectExpired now s) s x0 hx0sel x hx hid0.symm
      · exact h
    rw [hxdone] at hst
    cases hst
  refine ⟨hsel, ?_⟩
  show (selectExpired now (runPass now s)).foldl (processOne now) (runPass now s) =
    runPass now s
  rw [hsel]
  rfl

/-! The reconciliation pass under an injected store fault. -/

theorem runPassFaultyAux_prefix (now : Nat) (failOn : Nat → Bool)
    (l2 : List Reservation) (r0 : Reservation) (hfail : failOn r0.id = true) :
    ∀ (l1 : List Reservation) (s : Store), (∀ x ∈ l1, failOn x.id = false) →
      runPassFaultyAux now failOn s (l1 ++ r0 :: l2) =
        (l1.foldl (processOne now) s, true) := by
  intro l1
  induction l1 with
  | nil =>
    intro s _
    rw [List.nil_append]
    simp [runPassFaultyAux, hfail]
  | cons a l1 ih =>
    intro s hok
    rw [List.cons_append]
    have ha : failOn a.id = false := hok a (List.mem_cons_self a l1)
    simp only [runPassFaultyAux, ha, Bool.false_eq_true, reduceIte]
    rw [List.foldl_cons]
    exact ih (processOne now s a) (fun x hx => hok x (List.mem_cons_of_mem a hx))

theorem foldl_mem_of_ids_ne (now : Nat) (l : List Reservation) :
    ∀ (s : Store) (x : Reservation), x ∈ s.reservations →
      x.id ∉ l.map (fun y => y.id) →
      x ∈ (l.foldl (processOne now) s).reservations := by
  induction l with
  | nil => exact fun s x hx _ => hx
  | cons a l ih =>
    intro s x hx hne
    simp only [List.map_cons, List.mem_cons, not_or] at hne
    rw [List.foldl_cons]
    refine ih (processOne now s a) x ?_ hne.2
    rw [processOne_reservations]
    exact mem_setReservationStatus_of_ne hx hne.1

/-- Claim C7 (amended): an error while processing one reservation is caught
by the handler that wraps the whole sweep, so the pass reports the error
instead of propagating it, but the loop aborts: only the selected
reservations before the failing one are processed, and every selected
reservation after the failing one whose id was not among the processed ids
is still present unchanged in the resulting store. -/
theorem runPassFaulty_aborts (now : Nat) (failOn : Nat → Bool) (s : Store)
    (l1 l2 : List Reservation) (r0 : Reservation)
    (hsel : selectExpired now s = l1 ++ r0 :: l2)
    (hok : ∀ x ∈ l1, failOn x.id = false) (hfail : failOn r0.id = true) :
    runPassFaulty now failOn s = (l1.foldl (processOne now) s, true) ∧
    ∀ x ∈ l2, x.id ∉ l1.map (fun y => y.id) → x ∈ s.reservations →
      x ∈ (runPassFaulty now failOn s).1.reservations := by
  have h1 : runPassFaulty now failOn s = (l1.foldl (processOne now) s, true) := by
    rw [runPassFaulty, hsel]
    exact runPassFaultyAux_prefix now failOn l2 r0 hfail l1 s hok
  refine ⟨h1, ?_⟩
  intro x _ hxid hxmem
  rw [h1]
  exact foldl_mem_of_ids_ne now l1 s x hxmem hxid

/-- Counterexample to claim C7 as stated: in wStore5 both reservations 30 and
31 are selected by the pass, the store fault on reservation 30 is caught (the
flag is true), yet reservation 31 is left in the store unchanged with status
confirmed: the error did prevent the remaining selected reservation from
being processed. -/
theorem runPassFaulty_abort_counterexample :
    (runPassFaulty 100 wFail wStore5).2 = true ∧
    wRes6 ∈ selectExpired 100 wStore5 ∧
    wRes6 ∈ (runPassFaulty 100 wFail wStore5).1.reservations ∧
    wRes6.status = ResStatus.confirmed := by
  decide

/-- Witness for the amended claim C7: with the fault on reservation 30, the
pass over wStore5 stops before any write and reports the caught error. -/
theorem runPassFaulty_aborts_witness :
    runPassFaulty 100 wFail wStore5 = (wStore5, true) :=
  (runPassFaulty_aborts 100 wFail wStore5 [] [wRes6] wRes5 (by decide)
    (by simp) (by decide)).1

end RentACar
